import Mathlib

/-!
Verification of the build-configuration patch scripts of DJVUReader-iOS
(`configure_xcode_project.py`, `configure_xcframework.py`,
`configure_conditional_linking.py`).

A document is modelled as a list of characters.  The Python string and
regex operations used by the scripts are given executable models:

* `occurs pat s`          — Python `pat in s` / `re.search` for a literal;
* `replaceAll pat rep s`  — Python `s.replace(pat, rep)`;
* `subKey anchor mk s`    — `re.sub(r'ANCHOR[^;]*;', ...)` where the
  replacement may use the matched group (the run up to the first `;`);
* `subSettings ins s`     — the `buildSettings` insertion pattern:
  a lazy match that ends at the first `;` after the opening brace and
  fails if a closing brace comes first;
* `subKeyNL anchor s`     — `re.sub(r'ANCHOR[^;]*;\n', '')`;
* `subLineRemove lit s`   — `re.sub(r'[^\n]*LIT[^\n]*\n', '')`, removal of
  every newline-terminated line containing `LIT`.

The scanners are written with an explicit skip counter (the number of
already-consumed characters still to pass over after a replacement), which
keeps them structurally recursive and hence kernel-evaluable.

Each script is then a function from an optional document (the file-system
content at its hard-coded path) to a result flag plus an ordered trace of
file writes.
-/

abbrev Doc := List Char

/-- `leads pat s` is true when `pat` is an initial segment of `s`. -/
def leads : Doc → Doc → Bool
  | [], _ => true
  | _ :: _, [] => false
  | p :: ps, c :: cs => p == c && leads ps cs

/-- `occurs pat s` is true when `pat` appears contiguously in `s`
(Python `pat in s`). -/
def occurs (pat : Doc) : Doc → Bool
  | [] => leads pat []
  | c :: rest => leads pat (c :: rest) || occurs pat rest

/-- Worker for `replaceAll`: with `skip = n+1`, pass over the next
character (it belongs to an already-replaced match); at `skip = 0`, try to
match `pat` and emit `rep` for it. -/
def replaceAllGo (pat rep : Doc) : Nat → Doc → Doc
  | _, [] => []
  | skip+1, _ :: rest => replaceAllGo pat rep skip rest
  | 0, c :: rest =>
    if leads pat (c :: rest) = true ∧ pat ≠ [] then
      rep ++ replaceAllGo pat rep (pat.length - 1) rest
    else
      c :: replaceAllGo pat rep 0 rest

/-- Python `s.replace(pat, rep)`: replace every (leftmost, non-overlapping)
occurrence of `pat` by `rep`. -/
def replaceAll (pat rep s : Doc) : Doc := replaceAllGo pat rep 0 s

/-- Greedy `[^;]*;`: split `s` into the run before the first `;` and the
remainder after it; `none` if `s` has no `;`. -/
def takeToSemi : Doc → Option (Doc × Doc)
  | [] => none
  | c :: rest =>
    if c = ';' then some ([], rest)
    else
      match takeToSemi rest with
      | some pr => some (c :: pr.1, pr.2)
      | none => none

/-- Lazy `[^\x7d]*?;`: the run up to the first `;`, failing if a `\x7d` or the
end of the document comes before any `;`. -/
def takeLazySemi : Doc → Option (Doc × Doc)
  | [] => none
  | c :: rest =>
    if c = ';' then some ([], rest)
    else if c = '\x7d' then none
    else
      match takeLazySemi rest with
      | some pr => some (c :: pr.1, pr.2)
      | none => none

/-- The part of `s` before its first newline. -/
def lineHead : Doc → Doc
  | [] => []
  | c :: rest => if c = '\n' then [] else c :: lineHead rest

/-- Does `s` contain a newline? -/
def hasNL : Doc → Bool
  | [] => false
  | c :: rest => c == '\n' || hasNL rest

/-- Worker for `subKey`. -/
def subKeyGo (anchor : Doc) (mk : Doc → Doc) : Nat → Doc → Doc
  | _, [] => []
  | skip+1, _ :: rest => subKeyGo anchor mk skip rest
  | 0, c :: rest =>
    if leads anchor (c :: rest) = true then
      match takeToSemi ((c :: rest).drop anchor.length) with
      | some pr => mk pr.1 ++ subKeyGo anchor mk (anchor.length + pr.1.length) rest
      | none => c :: subKeyGo anchor mk 0 rest
    else
      c :: subKeyGo anchor mk 0 rest

/-- `re.sub(r'ANCHOR[^;]*;', mk(run), s)`: at each leftmost occurrence of
the literal `anchor` followed (with no intervening `;`) by a `;`, replace
the whole match by `mk run` where `run` is the text between the anchor and
the `;`. -/
def subKey (anchor : Doc) (mk : Doc → Doc) (s : Doc) : Doc := subKeyGo anchor mk 0 s

/-- `re.search(r'ANCHOR[^;]*;', s)`: is there a position where the anchor
matches and a `;` follows? -/
def searchKey (anchor : Doc) : Doc → Bool
  | [] => false
  | c :: rest =>
    (leads anchor (c :: rest) && (takeToSemi ((c :: rest).drop anchor.length)).isSome)
      || searchKey anchor rest

/-- The anchor of the settings-table pattern: `buildSettings = ` followed
by an opening brace. -/
def bsAnchor : Doc := "buildSettings = \x7b".toList

/-- Worker for `subSettings`. -/
def subSettingsGo (ins : Doc) : Nat → Doc → Doc
  | _, [] => []
  | skip+1, _ :: rest => subSettingsGo ins skip rest
  | 0, c :: rest =>
    if leads bsAnchor (c :: rest) = true then
      match takeLazySemi ((c :: rest).drop bsAnchor.length) with
      | some pr =>
          bsAnchor ++ pr.1 ++ ins ++ subSettingsGo ins (bsAnchor.length + pr.1.length) rest
      | none => c :: subSettingsGo ins 0 rest
    else
      c :: subSettingsGo ins 0 rest

/-- The settings-table insertion `re.sub`: the match runs from `bsAnchor`
to the first `;` provided no closing brace intervenes; the matched region
(whose final `;` is not part of group 1) is replaced by group 1 followed
by the insertion text `ins`. -/
def subSettings (ins s : Doc) : Doc := subSettingsGo ins 0 s

/-- Worker for `subKeyNL`. -/
def subKeyNLGo (anchor : Doc) : Nat → Doc → Doc
  | _, [] => []
  | skip+1, _ :: rest => subKeyNLGo anchor skip rest
  | 0, c :: rest =>
    if leads anchor (c :: rest) = true then
      match takeToSemi ((c :: rest).drop anchor.length) with
      | some pr =>
        if pr.2.head? = some '\n' then
          subKeyNLGo anchor (anchor.length + pr.1.length + 1) rest
        else c :: subKeyNLGo anchor 0 rest
      | none => c :: subKeyNLGo anchor 0 rest
    else
      c :: subKeyNLGo anchor 0 rest

/-- `re.sub(r'ANCHOR[^;]*;\n', '', s)`: remove each match of the anchored
key pattern when its `;` is immediately followed by a newline. -/
def subKeyNL (anchor s : Doc) : Doc := subKeyNLGo anchor 0 s

/-- `re.search(r'ANCHOR[^;]*;\n', s)`. -/
def searchKeyNL (anchor : Doc) : Doc → Bool
  | [] => false
  | c :: rest =>
    (leads anchor (c :: rest)
        && (match takeToSemi ((c :: rest).drop anchor.length) with
            | some pr => pr.2.head? == some '\n'
            | none => false))
      || searchKeyNL anchor rest

/-- Worker for `subLineRemove`. -/
def subLineRemoveGo (lit : Doc) : Nat → Doc → Doc
  | _, [] => []
  | skip+1, _ :: rest => subLineRemoveGo lit skip rest
  | 0, c :: rest =>
    if occurs lit (lineHead (c :: rest)) = true ∧ hasNL (c :: rest) = true then
      subLineRemoveGo lit (lineHead (c :: rest)).length rest
    else
      c :: subLineRemoveGo lit 0 rest

/-- `re.sub(r'[^\n]*LIT[^\n]*\n', '', s)`: remove every newline-terminated
line containing `lit`; a final line with no trailing newline is kept. -/
def subLineRemove (lit s : Doc) : Doc := subLineRemoveGo lit 0 s

/-- `re.search(r'[^\n]*LIT[^\n]*\n', s)`. -/
def searchLine (lit : Doc) : Doc → Bool
  | [] => false
  | c :: rest =>
    (occurs lit (lineHead (c :: rest)) && hasNL (c :: rest)) || searchLine lit rest

example : occurs "bc".toList "abcd".toList = true := by decide
example : occurs "bd".toList "abcd".toList = false := by decide
example : replaceAll "ab".toList "X".toList "abcabd".toList = "XcXd".toList := by decide
example : takeToSemi "xy;z".toList = some ("xy".toList, "z".toList) := by decide
example : takeLazySemi "x\x7dy;z".toList = none := by decide
example : subKey "K = ".toList (fun _ => "K = v;".toList) "a K = 1; b K = 2; c".toList
    = "a K = v; b K = v; c".toList := by decide
example : subLineRemove "bad".toList "ok\nis bad x\nok2\nbad".toList
    = "ok\nok2\nbad".toList := by decide
example : subSettings " I;".toList "x buildSettings = \x7bA = 1; B = 2;\x7d;".toList
    = "x buildSettings = \x7bA = 1 I; B = 2;\x7d;".toList := by decide
example : subKeyNL "L = ".toList "a L = 1;\nb".toList = "a b".toList := by decide

/-! ## Literals of `configure_xcode_project.py` -/

/-- Key probed by `'HEADER_SEARCH_PATHS' not in content`. -/
def hdrKey : Doc := "HEADER_SEARCH_PATHS".toList

/-- Literal part of the pattern `HEADER_SEARCH_PATHS = [^;]*;`. -/
def hdrAnchor : Doc := "HEADER_SEARCH_PATHS = ".toList

/-- Inserted settings line for the header search path. -/
def insHdrXP : Doc := "\n\t\t\t\tHEADER_SEARCH_PATHS = \"$(SRCROOT)/DJVUReader-iOS/LibDJVU/include\";".toList

/-- Tail appended to an existing `HEADER_SEARCH_PATHS` value. -/
def appHdrXP : Doc := ",\n\t\t\t\t\"$(SRCROOT)/DJVUReader-iOS/LibDJVU/include\";".toList

/-- Key probed by `'LIBRARY_SEARCH_PATHS' not in content`. -/
def libKey : Doc := "LIBRARY_SEARCH_PATHS".toList

/-- Inserted settings line for the library search path. -/
def insLibXP : Doc := "\n\t\t\t\tLIBRARY_SEARCH_PATHS = \"$(SRCROOT)/DJVUReader-iOS/LibDJVU/lib\";".toList

/-- Key probed by `'OTHER_LDFLAGS' not in content`. -/
def ldKey : Doc := "OTHER_LDFLAGS".toList

/-- Literal part of the pattern `OTHER_LDFLAGS = [^;]*;`. -/
def ldAnchor : Doc := "OTHER_LDFLAGS = ".toList

/-- Inserted settings line for the linker flags. -/
def insLdXP : Doc := "\n\t\t\t\tOTHER_LDFLAGS = \"-ldjvulibre\";".toList

/-- Tail appended to an existing `OTHER_LDFLAGS` value. -/
def appLdXP : Doc := ",\n\t\t\t\t\"-ldjvulibre\";".toList

/-- The flag probed by `'-ldjvulibre' not in content`. -/
def dashLd : Doc := "-ldjvulibre".toList

/-- Key probed by `'SWIFT_OBJC_BRIDGING_HEADER' not in content`. -/
def bridgeKey : Doc := "SWIFT_OBJC_BRIDGING_HEADER".toList

/-- Inserted settings line for the bridging header. -/
def insBridgeXP : Doc := "\n\t\t\t\tSWIFT_OBJC_BRIDGING_HEADER = \"DJVUReader-iOS/LibDJVU/DJVUReader-iOS-Bridging-Header.h\";".toList

/-! ## Stages of `configure_xcode_project.py` (content, modified flag) -/

/-- Header-search-path stage: insert when the key is absent, otherwise
append the include path to the first-semicolon-delimited value wherever
the anchored pattern matches. -/
def xpStageHdr (st : Doc × Bool) : Doc × Bool :=
  if occurs hdrKey st.1 = false then (subSettings insHdrXP st.1, true)
  else if searchKey hdrAnchor st.1 = true then
    (subKey hdrAnchor (fun run => hdrAnchor ++ run ++ appHdrXP) st.1, true)
  else st

/-- Library-search-path stage: insert only when the key is absent. -/
def xpStageLib (st : Doc × Bool) : Doc × Bool :=
  if occurs libKey st.1 = false then (subSettings insLibXP st.1, true)
  else st

/-- Linker-flags stage: insert when the key is absent; otherwise append
`-ldjvulibre` unless that flag already occurs somewhere in the document. -/
def xpStageLd (st : Doc × Bool) : Doc × Bool :=
  if occurs ldKey st.1 = false then (subSettings insLdXP st.1, true)
  else if searchKey ldAnchor st.1 = true ∧ occurs dashLd st.1 = false then
    (subKey ldAnchor (fun run => ldAnchor ++ run ++ appLdXP) st.1, true)
  else st

/-- Bridging-header stage: insert only when the key is absent. -/
def xpStageBridge (st : Doc × Bool) : Doc × Bool :=
  if occurs bridgeKey st.1 = false then (subSettings insBridgeXP st.1, true)
  else st

/-- In-memory pass of `configure_xcode_project.py`: the four stages in
source order, starting from `modified = False`. -/
def cfgXcodeTransform (c : Doc) : Doc × Bool :=
  xpStageBridge (xpStageLd (xpStageLib (xpStageHdr (c, false))))

/-! ## Literals and stages of `configure_xcframework.py` -/

/-- Static-library literal of the first removal pattern. -/
def litLibA : Doc := "libdjvulibre.a".toList

/-- Static-library literal of the second removal pattern. -/
def litLibSimA : Doc := "libdjvulibre_simulator.a".toList

/-- Replacement for the whole `HEADER_SEARCH_PATHS` assignment. -/
def xcfHdrRep : Doc := "HEADER_SEARCH_PATHS = \"$(SRCROOT)/DJVUReader-iOS/LibDJVU/libdjvulibre.xcframework/ios-arm64/libdjvulibre.framework/Headers\";".toList

/-- Inserted settings line for the XCFramework header search path. -/
def insXcfHdr : Doc := "\n\t\t\t\tHEADER_SEARCH_PATHS = \"$(SRCROOT)/DJVUReader-iOS/LibDJVU/libdjvulibre.xcframework/ios-arm64/libdjvulibre.framework/Headers\";".toList

/-- Literal part of the pattern `LIBRARY_SEARCH_PATHS = [^;]*;\n`. -/
def libAnchor : Doc := "LIBRARY_SEARCH_PATHS = ".toList

/-- Replacement for the whole `OTHER_LDFLAGS` assignment. -/
def xcfLdRep : Doc := "OTHER_LDFLAGS = \"-framework libdjvulibre\";".toList

/-- Inserted settings line for the XCFramework linker flags. -/
def insXcfLd : Doc := "\n\t\t\t\tOTHER_LDFLAGS = \"-framework libdjvulibre\";".toList

/-- Key probed by `'FRAMEWORK_SEARCH_PATHS' not in content`. -/
def fwKey : Doc := "FRAMEWORK_SEARCH_PATHS".toList

/-- Inserted settings line for the framework search path. -/
def insFw : Doc := "\n\t\t\t\tFRAMEWORK_SEARCH_PATHS = \"$(SRCROOT)/DJVUReader-iOS/LibDJVU\";".toList

/-- Old-static-library cleanup: when some newline-terminated line contains
`lit`, remove all such lines and set the modified flag. -/
def xcfStageRemove (lit : Doc) (st : Doc × Bool) : Doc × Bool :=
  if searchLine lit st.1 = true then (subLineRemove lit st.1, true) else st

/-- XCFramework header stage: replace every anchored `HEADER_SEARCH_PATHS`
assignment wholesale when one matches, else run the insertion pattern;
the modified flag is set on both branches. -/
def xcfStageHdr (st : Doc × Bool) : Doc × Bool :=
  if searchKey hdrAnchor st.1 = true then
    (subKey hdrAnchor (fun _ => xcfHdrRep) st.1, true)
  else (subSettings insXcfHdr st.1, true)

/-- `LIBRARY_SEARCH_PATHS` removal stage. -/
def xcfStageLib (st : Doc × Bool) : Doc × Bool :=
  if searchKeyNL libAnchor st.1 = true then (subKeyNL libAnchor st.1, true) else st

/-- XCFramework linker-flags stage: replace every anchored `OTHER_LDFLAGS`
assignment wholesale when one matches, else run the insertion pattern;
the modified flag is set on both branches. -/
def xcfStageLd (st : Doc × Bool) : Doc × Bool :=
  if searchKey ldAnchor st.1 = true then
    (subKey ldAnchor (fun _ => xcfLdRep) st.1, true)
  else (subSettings insXcfLd st.1, true)

/-- Framework-search-path stage: insert only when the key is absent. -/
def xcfStageFw (st : Doc × Bool) : Doc × Bool :=
  if occurs fwKey st.1 = false then (subSettings insFw st.1, true) else st

/-- In-memory pass of `configure_xcframework.py` in source order. -/
def xcfTransform (c : Doc) : Doc × Bool :=
  xcfStageFw (xcfStageLd (xcfStageLib (xcfStageHdr
    (xcfStageRemove litLibSimA (xcfStageRemove litLibA (c, false))))))

/-! ## Literals and model of `configure_conditional_linking.py` -/

/-- `debug_pattern` (and, with the same text, `release_pattern`). -/
def dbgLdPat : Doc := "OTHER_LDFLAGS = (\n\t\t\t\t\t\"$(inherited)\",\n\t\t\t\t\t\"-ldjvulibre\",\n\t\t\t\t);".toList

/-- `release_pattern`: textually identical to `debug_pattern`. -/
def relLdPat : Doc := "OTHER_LDFLAGS = (\n\t\t\t\t\t\"$(inherited)\",\n\t\t\t\t\t\"-ldjvulibre\",\n\t\t\t\t);".toList

/-- `conditional_ldflags`. -/
def condLd : Doc := "OTHER_LDFLAGS = (\n\t\t\t\t\t\"$(inherited)\",\n\t\t\t\t\t\"$(DJVU_LIBRARY_FLAG)\",\n\t\t\t\t);".toList

/-- `debug_build_start`. -/
def dbgStart : Doc := "E0C520F82DF4C8C7009D84A3 /* Debug */ = \x7b\n\t\t\tisa = XCBuildConfiguration;\n\t\t\tbuildSettings = \x7b".toList

/-- `release_build_start`. -/
def relStart : Doc := "E0C520F92DF4C8C7009D84A3 /* Release */ = \x7b\n\t\t\tisa = XCBuildConfiguration;\n\t\t\tbuildSettings = \x7b".toList

/-- `debug_replacement`. -/
def dbgRepl : Doc := "E0C520F82DF4C8C7009D84A3 /* Debug */ = \x7b\n\t\t\tisa = XCBuildConfiguration;\n\t\t\tbuildSettings = \x7b\n\t\t\t\t\"DJVU_LIBRARY_FLAG[sdk=iphoneos*]\" = \"-ldjvulibre_device\";\n\t\t\t\t\"DJVU_LIBRARY_FLAG[sdk=iphonesimulator*]\" = \"-ldjvulibre_simulator\";".toList

/-- `release_replacement`. -/
def relRepl : Doc := "E0C520F92DF4C8C7009D84A3 /* Release */ = \x7b\n\t\t\tisa = XCBuildConfiguration;\n\t\t\tbuildSettings = \x7b\n\t\t\t\t\"DJVU_LIBRARY_FLAG[sdk=iphoneos*]\" = \"-ldjvulibre_device\";\n\t\t\t\t\"DJVU_LIBRARY_FLAG[sdk=iphonesimulator*]\" = \"-ldjvulibre_simulator\";".toList

/-- Per-operation report of the conditional-linking pass: the final
content plus, for each of the four guarded replacements, whether its
pattern was found and the replacement applied. -/
structure CondOut where
  content : Doc
  r1 : Bool
  r2 : Bool
  r3 : Bool
  r4 : Bool
deriving DecidableEq

/-- In-memory pass of `configure_conditional_linking.py`: four guarded
`str.replace` operations in source order. -/
def condTransform (c : Doc) : CondOut :=
  let a1 := occurs dbgLdPat c
  let c1 := if a1 = true then replaceAll dbgLdPat condLd c else c
  let a2 := occurs relLdPat c1
  let c2 := if a2 = true then replaceAll relLdPat condLd c1 else c1
  let a3 := occurs dbgStart c2
  let c3 := if a3 = true then replaceAll dbgStart dbgRepl c2 else c2
  let a4 := occurs relStart c3
  let c4 := if a4 = true then replaceAll relStart relRepl c3 else c3
  ⟨c4, a1, a2, a3, a4⟩

/-! ## File-write traces -/

/-- The two paths a script writes: the project file and its derived
backup path (original path plus the script's fixed suffix). -/
inductive WPath where
  | original : WPath
  | backup : WPath
deriving DecidableEq

/-- Result of one script invocation: the boolean returned by
`configure_xcode_project()` and the ordered list of file writes. -/
structure RunOut where
  ret : Bool
  writes : List (WPath × Doc)
deriving DecidableEq

/-- `configure_xcode_project.py` end to end: `False` and no writes when
the path is missing; otherwise the backup write, then the write-back only
when the modified flag is set. -/
def xcodeRun (fs : Option Doc) : RunOut :=
  match fs with
  | none => ⟨false, []⟩
  | some c =>
    let st := cfgXcodeTransform c
    ⟨true, (WPath.backup, c) :: (if st.2 = true then [(WPath.original, st.1)] else [])⟩

/-- `configure_xcframework.py` end to end. -/
def xcfRun (fs : Option Doc) : RunOut :=
  match fs with
  | none => ⟨false, []⟩
  | some c =>
    let st := xcfTransform c
    ⟨true, (WPath.backup, c) :: (if st.2 = true then [(WPath.original, st.1)] else [])⟩

/-- `configure_conditional_linking.py` end to end: it writes the content
back unconditionally. -/
def condRun (fs : Option Doc) : RunOut :=
  match fs with
  | none => ⟨false, []⟩
  | some c => ⟨true, [(WPath.backup, c), (WPath.original, (condTransform c).content)]⟩

example : (cfgXcodeTransform "HEADER_SEARCH_PATHS = A; LIBRARY_SEARCH_PATHS OTHER_LDFLAGS -ldjvulibre SWIFT_OBJC_BRIDGING_HEADER".toList).1
    = "HEADER_SEARCH_PATHS = A,\n\t\t\t\t\"$(SRCROOT)/DJVUReader-iOS/LibDJVU/include\"; LIBRARY_SEARCH_PATHS OTHER_LDFLAGS -ldjvulibre SWIFT_OBJC_BRIDGING_HEADER".toList := by decide
example : (xcfTransform "x\ny libdjvulibre.a z\nw\n".toList)
    = ("x\nw\n".toList, true) := by decide

/-! ## General lemmas about the scanners -/

theorem leads_self_append (p t : Doc) : leads p (p ++ t) = true := by
  induction p with
  | nil => rfl
  | cons a as ih => simp [leads, ih]

theorem leads_false_of_head_ne {a c : Char} (as cs : Doc) (h : c ≠ a) :
    leads (a :: as) (c :: cs) = false := by
  have hb : (a == c) = false := beq_eq_false_iff_ne.mpr (fun he => h he.symm)
  simp [leads, hb]

theorem occurs_false_of_head_notMem {a : Char} (as : Doc) :
    ∀ s : Doc, (∀ x ∈ s, x ≠ a) → occurs (a :: as) s = false := by
  intro s
  induction s with
  | nil => intro _; rfl
  | cons c cs ih =>
    intro h
    have hc : c ≠ a := h c (by simp)
    have h2 : ∀ x ∈ cs, x ≠ a := fun x hx => h x (by simp [hx])
    simp [occurs, leads_false_of_head_ne as cs hc, ih h2]

theorem occurs_append_right (pat s t : Doc) (h : occurs pat t = true) :
    occurs pat (s ++ t) = true := by
  induction s with
  | nil => simpa
  | cons c cs ih => simp [occurs, ih]

theorem takeToSemi_split (r : Doc) : ∀ v : Doc, ';' ∉ v →
    takeToSemi (v ++ ';' :: r) = some (v, r) := by
  intro v
  induction v with
  | nil => intro _; simp [takeToSemi]
  | cons c cs ih =>
    intro h
    have hc : c ≠ ';' := by intro he; exact h (by simp [he])
    have h2 : ';' ∉ cs := fun hm => h (by simp [hm])
    simp [takeToSemi, hc, ih h2]

theorem takeLazySemi_split (r : Doc) : ∀ v : Doc, (∀ x ∈ v, x ≠ ';' ∧ x ≠ '\x7d') →
    takeLazySemi (v ++ ';' :: r) = some (v, r) := by
  intro v
  induction v with
  | nil => intro _; simp [takeLazySemi]
  | cons c cs ih =>
    intro h
    have hc := h c (by simp)
    have h2 : ∀ x ∈ cs, x ≠ ';' ∧ x ≠ '\x7d' := fun x hx => h x (by simp [hx])
    simp [takeLazySemi, hc.1, hc.2, ih h2]

theorem takeLazySemi_brace (rest : Doc) : ∀ v : Doc, (∀ x ∈ v, x ≠ ';' ∧ x ≠ '\x7d') →
    takeLazySemi (v ++ '\x7d' :: rest) = none := by
  intro v
  induction v with
  | nil => intro _; simp [takeLazySemi]
  | cons c cs ih =>
    intro h
    have hc := h c (by simp)
    have h2 : ∀ x ∈ cs, x ≠ ';' ∧ x ≠ '\x7d' := fun x hx => h x (by simp [hx])
    simp [takeLazySemi, hc.1, hc.2, ih h2]

theorem subKeyGo_pass (anchor : Doc) (mk : Doc → Doc) :
    ∀ t u : Doc, subKeyGo anchor mk t.length (t ++ u) = subKeyGo anchor mk 0 u := by
  intro t
  induction t with
  | nil => intro u; rfl
  | cons c cs ih =>
    intro u
    simpa only [List.length_cons, List.cons_append, subKeyGo] using ih u

theorem subKeyGo_copy {a : Char} (as : Doc) (mk : Doc → Doc) :
    ∀ s u : Doc, (∀ x ∈ s, x ≠ a) →
      subKeyGo (a :: as) mk 0 (s ++ u) = s ++ subKeyGo (a :: as) mk 0 u := by
  intro s
  induction s with
  | nil => intro u _; rfl
  | cons c cs ih =>
    intro u h
    have hc : c ≠ a := h c (by simp)
    have h2 : ∀ x ∈ cs, x ≠ a := fun x hx => h x (by simp [hx])
    have hl : leads (a :: as) (c :: (cs ++ u)) = false := leads_false_of_head_ne _ _ hc
    simp [subKeyGo, hl, ih u h2]

theorem subKeyGo_id {a : Char} (as : Doc) (mk : Doc → Doc) (s : Doc)
    (h : ∀ x ∈ s, x ≠ a) : subKeyGo (a :: as) mk 0 s = s := by
  have hc := subKeyGo_copy as mk s [] h
  have hnil : subKeyGo (a :: as) mk 0 [] = ([] : Doc) := rfl
  simpa [hnil] using hc

theorem subKeyGo_hit {a : Char} (as v r : Doc) (mk : Doc → Doc) (hv : ';' ∉ v) :
    subKeyGo (a :: as) mk 0 ((a :: as) ++ v ++ ';' :: r)
      = mk v ++ subKeyGo (a :: as) mk 0 r := by
  have hl : leads (a :: as) ((a :: as) ++ (v ++ ';' :: r)) = true :=
    leads_self_append _ _
  have hd : ((a :: as) ++ (v ++ ';' :: r)).drop (a :: as).length = v ++ ';' :: r :=
    List.drop_left _ _
  have ht : takeToSemi (v ++ ';' :: r) = some (v, r) := takeToSemi_split r v hv
  have hstep : subKeyGo (a :: as) mk 0 ((a :: as) ++ v ++ ';' :: r)
      = mk v ++ subKeyGo (a :: as) mk ((a :: as).length + v.length) (as ++ (v ++ ';' :: r)) := by
    calc subKeyGo (a :: as) mk 0 ((a :: as) ++ v ++ ';' :: r)
        = subKeyGo (a :: as) mk 0 (a :: (as ++ (v ++ ';' :: r))) := by
          simp [List.append_assoc]
      _ = mk v ++ subKeyGo (a :: as) mk ((a :: as).length + v.length) (as ++ (v ++ ';' :: r)) := by
          rw [subKeyGo]
          rw [show (a :: (as ++ (v ++ ';' :: r))) = ((a :: as) ++ (v ++ ';' :: r)) from rfl] at *
          simp only [hl, if_true, hd, ht]
  rw [hstep]
  have hlen : (a :: as).length + v.length = (as ++ v ++ [';']).length := by
    simp [List.length_append, List.length_cons]
    omega
  have hform : as ++ (v ++ ';' :: r) = (as ++ v ++ [';']) ++ r := by
    simp [List.append_assoc]
  rw [hlen, hform, subKeyGo_pass]

theorem searchKey_false_of_head_notMem {a : Char} (as : Doc) :
    ∀ s : Doc, (∀ x ∈ s, x ≠ a) → searchKey (a :: as) s = false := by
  intro s
  induction s with
  | nil => intro _; rfl
  | cons c cs ih =>
    intro h
    have hc : c ≠ a := h c (by simp)
    have h2 : ∀ x ∈ cs, x ≠ a := fun x hx => h x (by simp [hx])
    simp [searchKey, leads_false_of_head_ne as cs hc, ih h2]

theorem searchKey_append_right (anchor : Doc) :
    ∀ s t : Doc, searchKey anchor t = true → searchKey anchor (s ++ t) = true := by
  intro s t h
  induction s with
  | nil => simpa
  | cons c cs ih => simp [searchKey, ih]

theorem searchKey_hit {a : Char} (as v r : Doc) (hv : ';' ∉ v) :
    searchKey (a :: as) ((a :: as) ++ v ++ ';' :: r) = true := by
  have hl : leads (a :: as) ((a :: as) ++ (v ++ ';' :: r)) = true :=
    leads_self_append _ _
  have hd : ((a :: as) ++ (v ++ ';' :: r)).drop (a :: as).length = v ++ ';' :: r :=
    List.drop_left _ _
  have ht : takeToSemi (v ++ ';' :: r) = some (v, r) := takeToSemi_split r v hv
  have : ((a :: as) ++ v ++ ';' :: r) = a :: (as ++ (v ++ ';' :: r)) := by
    simp [List.append_assoc]
  rw [this, searchKey]
  rw [show (a :: (as ++ (v ++ ';' :: r))) = ((a :: as) ++ (v ++ ';' :: r)) from rfl]
  simp only [hl, hd, ht, Option.isSome_some, Bool.and_self, Bool.true_or]

/-! ## Lemmas about line removal -/

theorem lineHead_no_nl (r : Doc) : ∀ b : Doc, '\n' ∉ b →
    lineHead (b ++ '\n' :: r) = b := by
  intro b
  induction b with
  | nil => intro _; simp [lineHead]
  | cons c cs ih =>
    intro h
    have hc : c ≠ '\n' := by intro he; exact h (by simp [he])
    have h2 : '\n' ∉ cs := fun hm => h (by simp [hm])
    simp [lineHead, hc, ih h2]

theorem hasNL_append_nl (b r : Doc) : hasNL (b ++ '\n' :: r) = true := by
  induction b with
  | nil => simp [hasNL]
  | cons c cs ih => simp [hasNL, ih]

theorem hasNL_false_of_notMem : ∀ s : Doc, '\n' ∉ s → hasNL s = false := by
  intro s
  induction s with
  | nil => intro _; rfl
  | cons c cs ih =>
    intro h
    have hc : c ≠ '\n' := by intro he; exact h (by simp [he])
    have h2 : '\n' ∉ cs := fun hm => h (by simp [hm])
    simp [hasNL, hc, ih h2]

theorem occurs_tail_false {pat : Doc} {c : Char} {cs : Doc}
    (h : occurs pat (c :: cs) = false) : occurs pat cs = false := by
  rw [occurs] at h
  exact (Bool.or_eq_false_iff.mp h).2

theorem occurs_nil_of_ne (lit : Doc) (h : lit ≠ []) : occurs lit [] = false := by
  cases lit with
  | nil => exact absurd rfl h
  | cons c cs => rfl

theorem subLineRemoveGo_pass (lit : Doc) :
    ∀ t u : Doc, subLineRemoveGo lit t.length (t ++ u) = subLineRemoveGo lit 0 u := by
  intro t
  induction t with
  | nil => intro u; rfl
  | cons c cs ih =>
    intro u
    simpa only [List.length_cons, List.cons_append, subLineRemoveGo] using ih u

theorem subLineRemoveGo_copy (lit r : Doc) (hlit : lit ≠ []) :
    ∀ b : Doc, '\n' ∉ b → occurs lit b = false →
      subLineRemoveGo lit 0 (b ++ '\n' :: r) = b ++ '\n' :: subLineRemoveGo lit 0 r := by
  intro b
  induction b with
  | nil =>
    intro _ _
    have h0 : occurs lit (lineHead ('\n' :: r)) = false := by
      simpa [lineHead] using occurs_nil_of_ne lit hlit
    simp [subLineRemoveGo, h0]
  | cons c cs ih =>
    intro hb ho
    have hc : c ≠ '\n' := by intro he; exact hb (by simp [he])
    have h2 : '\n' ∉ cs := fun hm => hb (by simp [hm])
    have ho2 : occurs lit cs = false := occurs_tail_false ho
    have hline : lineHead ((c :: cs) ++ '\n' :: r) = c :: cs := by
      exact lineHead_no_nl r (c :: cs) hb
    have hcond : occurs lit (lineHead ((c :: cs) ++ '\n' :: r)) = false := by
      rw [hline]; exact ho
    simp only [List.cons_append] at hcond ⊢
    simp [subLineRemoveGo, hcond, ih h2 ho2]

theorem subLineRemoveGo_drop (lit r : Doc) :
    ∀ b : Doc, '\n' ∉ b → occurs lit b = true →
      subLineRemoveGo lit 0 (b ++ '\n' :: r) = subLineRemoveGo lit 0 r := by
  intro b
  cases b with
  | nil =>
    intro _ ho
    have h0 : occurs lit (lineHead ('\n' :: r)) = true := by
      simpa [lineHead] using ho
    simp only [List.nil_append]
    simp [subLineRemoveGo, h0, lineHead, hasNL, ho]
  | cons c cs =>
    intro hb ho
    have hline : lineHead ((c :: cs) ++ '\n' :: r) = c :: cs := lineHead_no_nl r (c :: cs) hb
    have hnl : hasNL ((c :: cs) ++ '\n' :: r) = true := hasNL_append_nl _ _
    simp only [List.cons_append] at hline hnl ⊢
    simp only [subLineRemoveGo, hline, ho, hnl, and_self, if_true, List.length_cons]
    have hform : cs ++ '\n' :: r = (cs ++ ['\n']) ++ r := by simp
    have hlen : cs.length + 1 = (cs ++ ['\n']).length := by simp
    rw [hform, hlen, subLineRemoveGo_pass]

theorem subLineRemoveGo_lastLine (lit : Doc) :
    ∀ t : Doc, '\n' ∉ t → subLineRemoveGo lit 0 t = t := by
  intro t
  induction t with
  | nil => intro _; rfl
  | cons c cs ih =>
    intro h
    have h2 : '\n' ∉ cs := fun hm => h (by simp [hm])
    have hnl : hasNL (c :: cs) = false := hasNL_false_of_notMem _ h
    simp [subLineRemoveGo, hnl, ih h2]

/-- A document assembled from newline-free line bodies plus a final
newline-free fragment. -/
def joinNL : List Doc → Doc → Doc
  | [], fin => fin
  | b :: bs, fin => b ++ '\n' :: joinNL bs fin

/-! ## Block-end locators (for the Block Locator claim) -/

/-- Offset of the first position where `pat` matches in `s` (the position
`re` takes for the leftmost match). -/
def findFrom (pat : Doc) : Doc → Option Nat
  | [] => if leads pat [] = true then some 0 else none
  | c :: rest =>
    if leads pat (c :: rest) = true then some 0
    else (findFrom pat rest).map (fun k => k + 1)

/-- End (exclusive offset) of the region the settings pattern of the
scripts matches at the first `bsAnchor` occurrence: the code's effective
block span, ending one past the first `;` after the opening brace and
undefined when a closing brace comes before that `;`. -/
def codeBlockEnd (s : Doc) : Option Nat :=
  match findFrom bsAnchor s with
  | none => none
  | some i =>
    match takeLazySemi ((s.drop i).drop bsAnchor.length) with
    | some pr => some (i + bsAnchor.length + pr.1.length + 1)
    | none => none

/-- Modelled from the spec (the source has no such scanner): "Determines
the block's end by scanning forward from the opening brace, tracking
nested brace depth, and selecting the offset of the matching closing
brace at depth zero."  `braceClose d s` is the offset in `s` of the
closing brace that matches at depth `d`. -/
def braceClose : Nat → Doc → Option Nat
  | _, [] => none
  | depth, c :: rest =>
    if c = '\x7d' then
      if depth = 0 then some 0 else (braceClose (depth - 1) rest).map (fun k => k + 1)
    else if c = '\x7b' then (braceClose (depth + 1) rest).map (fun k => k + 1)
    else (braceClose depth rest).map (fun k => k + 1)

/-- Modelled from the spec (the source has no such scanner): the Block
Locator's end offset, the matching closing brace of the settings table
opened at the first anchor. -/
def specBlockEnd (s : Doc) : Option Nat :=
  match findFrom bsAnchor s with
  | none => none
  | some i =>
    (braceClose 0 ((s.drop i).drop bsAnchor.length)).map (fun k => i + bsAnchor.length + k)

theorem findFrom_self (pat t : Doc) (h : pat ≠ []) : findFrom pat (pat ++ t) = some 0 := by
  cases pat with
  | nil => exact absurd rfl h
  | cons a as =>
    have hl : leads (a :: as) ((a :: as) ++ t) = true := leads_self_append (a :: as) t
    simp only [List.cons_append] at hl ⊢
    simp [findFrom, hl]

/-! ## Decompositions of script literals -/

/-- Value part of the XCFramework `OTHER_LDFLAGS` replacement. -/
def xcfLdVal : Doc := "\"-framework libdjvulibre\"".toList

theorem xcfLdRep_decomp : xcfLdRep = ldAnchor ++ xcfLdVal ++ ';' :: [] := by decide

/-- Tail of `ldAnchor` after its head character. -/
def ldAnchorTl : Doc := "THER_LDFLAGS = ".toList

theorem ldAnchor_cons : ldAnchor = 'O' :: ldAnchorTl := by decide

/-! ## Flag lemmas for `configure_xcode_project.py` -/

theorem xpStageHdr_flag (st : Doc × Bool) (h : (xpStageHdr st).2 = false) :
    xpStageHdr st = st := by
  by_cases h1 : occurs hdrKey st.1 = false
  · exfalso; simp [xpStageHdr, h1] at h
  · by_cases h2 : searchKey hdrAnchor st.1 = true
    · exfalso; simp [xpStageHdr, h1, h2] at h
    · simp [xpStageHdr, h1, h2]

theorem xpStageLib_flag (st : Doc × Bool) (h : (xpStageLib st).2 = false) :
    xpStageLib st = st := by
  by_cases h1 : occurs libKey st.1 = false
  · exfalso; simp [xpStageLib, h1] at h
  · simp [xpStageLib, h1]

theorem xpStageLd_flag (st : Doc × Bool) (h : (xpStageLd st).2 = false) :
    xpStageLd st = st := by
  by_cases h1 : occurs ldKey st.1 = false
  · exfalso; simp [xpStageLd, h1] at h
  · by_cases h2 : searchKey ldAnchor st.1 = true ∧ occurs dashLd st.1 = false
    · exfalso; simp [xpStageLd, h1, h2] at h
    · simp [xpStageLd, h1, h2]

theorem xpStageBridge_flag (st : Doc × Bool) (h : (xpStageBridge st).2 = false) :
    xpStageBridge st = st := by
  by_cases h1 : occurs bridgeKey st.1 = false
  · exfalso; simp [xpStageBridge, h1] at h
  · simp [xpStageBridge, h1]

theorem cfgXcodeTransform_flag (d : Doc) (h : (cfgXcodeTransform d).2 = false) :
    (cfgXcodeTransform d).1 = d := by
  unfold cfgXcodeTransform at h ⊢
  have h4 := xpStageBridge_flag _ h
  rw [h4] at h ⊢
  have h3 := xpStageLd_flag _ h
  rw [h3] at h ⊢
  have h2 := xpStageLib_flag _ h
  rw [h2] at h ⊢
  have h1 := xpStageHdr_flag _ h
  rw [h1]

/-! ## Concrete documents used in the claim analyses -/

/-- A document that already has all four keys of
`configure_xcode_project.py`, with an anchored `HEADER_SEARCH_PATHS`
assignment. -/
def c1doc : Doc := "HEADER_SEARCH_PATHS = A; LIBRARY_SEARCH_PATHS OTHER_LDFLAGS -ldjvulibre SWIFT_OBJC_BRIDGING_HEADER".toList

/-- A document with no `buildSettings` block at all, but with a line
mentioning the old static library. -/
def c2doc : Doc := "A\nxx libdjvulibre.a yy\nB\n".toList

/-- A document whose settings table holds a quoted value containing a
parenthesis-like token, followed by the table's closing brace. -/
def c3doc : Doc := "buildSettings = \x7b\n\tA = \"x)y\";\n\x7d;\nZ".toList

/-- A document that no pattern of `configure_xcframework.py` rewrites. -/
def c7doc : Doc := "Z".toList

/-- A document where every branch of `configure_xcode_project.py`
declines to rewrite. -/
def c7noop : Doc := "HEADER_SEARCH_PATHS LIBRARY_SEARCH_PATHS OTHER_LDFLAGS -ldjvulibre SWIFT_OBJC_BRIDGING_HEADER".toList

/-- A document with the same setting key twice. -/
def c9doc : Doc := "OTHER_LDFLAGS = A;\nOTHER_LDFLAGS = B;\n".toList

/-- A document containing the Release block anchor of
`configure_conditional_linking.py` but neither the Debug anchor nor the
`OTHER_LDFLAGS` tuple pattern. -/
def c8doc : Doc := "AAA\n".toList ++ relStart ++ "\nBBB".toList

/-! ## Claims -/

/-- C1: running `configure_xcode_project.py` twice is not idempotent: on
`c1doc` (which already carries an anchored `HEADER_SEARCH_PATHS`
assignment) the second run appends the include path again, producing
output different from the first run's, with the modified flag still set.
This evaluates the code at the failing input of the idempotency claim. -/
theorem c1_second_run_not_identical :
    ((cfgXcodeTransform (cfgXcodeTransform c1doc).1).1 ≠ (cfgXcodeTransform c1doc).1)
    ∧ (cfgXcodeTransform (cfgXcodeTransform c1doc).1).2 = true := by decide

/-- C2 (counterexample): on `c2doc` there is no `buildSettings` block, so
every byte of the document lies outside all matched configuration blocks,
yet `configure_xcframework.py` still changes the document (it removes the
`libdjvulibre.a` line).  The claim that bytes outside matched blocks are
untouched is therefore false. -/
theorem c2_counterexample :
    occurs bsAnchor c2doc = false ∧ (xcfTransform c2doc).1 ≠ c2doc := by decide

/-- C3 (counterexample): on `c3doc` the code's settings span does not end
at the matching closing brace selected by the spec's depth-tracking
locator: the code's span ends one past the first `;`, strictly inside the
block. -/
theorem c3_counterexample :
    codeBlockEnd c3doc ≠ specBlockEnd c3doc ∧ (specBlockEnd c3doc).isSome = true := by decide

/-- C4: for every existing document, each of the three scripts writes the
backup first, with exactly the pre-mutation content, and every later
write goes to the original path only — the backup is never rewritten. -/
theorem c4_backup_first (d : Doc) :
    (xcfRun (some d)).writes.head? = some (WPath.backup, d)
    ∧ ((xcfRun (some d)).writes.tail.all fun w => w.1 == WPath.original) = true
    ∧ (condRun (some d)).writes.head? = some (WPath.backup, d)
    ∧ ((condRun (some d)).writes.tail.all fun w => w.1 == WPath.original) = true
    ∧ (xcodeRun (some d)).writes.head? = some (WPath.backup, d)
    ∧ ((xcodeRun (some d)).writes.tail.all fun w => w.1 == WPath.original) = true := by
  refine ⟨rfl, ?_, rfl, rfl, rfl, ?_⟩
  · cases h : (xcfTransform d).2 <;> simp [xcfRun, h]
  · cases h : (cfgXcodeTransform d).2 <;> simp [xcodeRun, h]

/-- C5 (counterexample): the block already holds exactly the desired
`OTHER_LDFLAGS` value; the replace stage of `configure_xcframework.py`
leaves the bytes unchanged but reports the operation as a modification
(`modified = True`, printed as "Updated"), not as `unchanged`. -/
theorem c5_counterexample :
    (xcfStageLd (xcfLdRep, false)).1 = xcfLdRep
    ∧ (xcfStageLd (xcfLdRep, false)).2 = true := by decide

/-- C7 (counterexample): on `c7doc` no text changes at all, yet the
modified flag of `configure_xcframework.py` is true (its insertion
branches set it unconditionally), so the flag is not equivalent to "the
final document differs from the content read". -/
theorem c7_counterexample :
    (xcfTransform c7doc).1 = c7doc ∧ (xcfTransform c7doc).2 = true := by decide

/-- C7 (amended): the flag is sound in one direction only — when
`configure_xcode_project.py` reports `modified = false`, the in-memory
document equals the content read and no write-back occurs (only the
backup write happens). -/
theorem c7_flag_false_unchanged (d : Doc) (h : (cfgXcodeTransform d).2 = false) :
    (cfgXcodeTransform d).1 = d
    ∧ xcodeRun (some d) = ⟨true, [(WPath.backup, d)]⟩ := by
  refine ⟨cfgXcodeTransform_flag d h, ?_⟩
  simp [xcodeRun, h]

/-- C7 (witness): the amended theorem applied at `c7noop`. -/
theorem c7_witness :
    (cfgXcodeTransform c7noop).1 = c7noop
    ∧ xcodeRun (some c7noop) = ⟨true, [(WPath.backup, c7noop)]⟩ :=
  c7_flag_false_unchanged c7noop (by decide)

/-- C6: when the document path does not exist, each script returns the
failure value and performs no write at all — no backup, no write-back. -/
theorem c6_missing_path_no_writes :
    xcodeRun none = ⟨false, []⟩ ∧ xcfRun none = ⟨false, []⟩
    ∧ condRun none = ⟨false, []⟩ :=
  ⟨rfl, rfl, rfl⟩

/-- C9 (counterexample): with the key present twice (`c9doc`), the
replace stage of `configure_xcframework.py` rewrites both occurrences —
the second assignment (`OTHER_LDFLAGS = B;`) does not survive — so the
patch is not applied to the first occurrence only, and the outcome
carries no duplicate-key flag (only the content and the modified bit). -/
theorem c9_counterexample :
    (xcfStageLd (c9doc, false)).1 = xcfLdRep ++ '\n' :: (xcfLdRep ++ "\n".toList)
    ∧ occurs "OTHER_LDFLAGS = B".toList (xcfStageLd (c9doc, false)).1 = false := by decide

/-- C10: every script's entry function returns `True` exactly when the
document path exists — a run in which nothing matched still returns
`True`; `False` is returned only for the missing-path case. -/
theorem c10_ret_iff_path_exists (fs : Option Doc) :
    (xcodeRun fs).ret = fs.isSome ∧ (xcfRun fs).ret = fs.isSome
    ∧ (condRun fs).ret = fs.isSome := by
  cases fs <;> exact ⟨rfl, rfl, rfl⟩

/-- C2 (amended): the old-library cleanup of `configure_xcframework.py`
is a whole-document line filter, not a block-scoped edit: for any
document assembled from newline-free line bodies plus a final fragment,
it removes exactly the newline-terminated lines containing
`libdjvulibre.a` — wherever they are, inside a block or not — and keeps
every other line byte-for-byte in order. -/
theorem c2_lines_outside_matches_preserved (bodies : List Doc) (fin : Doc)
    (hb : ∀ b ∈ bodies, '\n' ∉ b) (hf : '\n' ∉ fin) :
    subLineRemove litLibA (joinNL bodies fin)
      = joinNL (bodies.filter (fun b => !(occurs litLibA b))) fin := by
  have hlit : litLibA ≠ [] := by decide
  revert hb
  induction bodies with
  | nil =>
    intro _
    simpa [joinNL, subLineRemove] using subLineRemoveGo_lastLine litLibA fin hf
  | cons b bs ih =>
    intro hb
    have hb0 : '\n' ∉ b := hb b (by simp)
    have hbs : ∀ x ∈ bs, '\n' ∉ x := fun x hx => hb x (by simp [hx])
    have hih := ih hbs
    rw [subLineRemove] at hih
    show subLineRemoveGo litLibA 0 (b ++ '\n' :: joinNL bs fin) = _
    cases ho : occurs litLibA b with
    | true =>
      rw [subLineRemoveGo_drop litLibA (joinNL bs fin) b hb0 ho, hih]
      simp [List.filter_cons, ho]
    | false =>
      rw [subLineRemoveGo_copy litLibA (joinNL bs fin) hlit b hb0 ho, hih]
      simp [joinNL, List.filter_cons, ho]

/-- Line bodies used to witness the line-filter theorem. -/
def c2bodies : List Doc :=
  ["keep one".toList, "drop libdjvulibre.a ref".toList, "keep two".toList]

/-- C2 (witness): the amended theorem applied at a concrete document. -/
theorem c2_amended_witness :
    subLineRemove litLibA (joinNL c2bodies "tail".toList)
      = joinNL (c2bodies.filter (fun b => !(occurs litLibA b))) "tail".toList :=
  c2_lines_outside_matches_preserved c2bodies _ (by decide) (by decide)

/-- C3 (amended): the code performs no brace counting — the settings span
it matches ends one past the first `;` after the opening brace, provided
no closing brace intervenes (and the block goes unmatched otherwise, per
the counterexample); it does not end at the matching closing brace. -/
theorem c3_code_ends_at_first_semi (run rest : Doc)
    (h : ∀ x ∈ run, x ≠ ';' ∧ x ≠ '\x7d') :
    codeBlockEnd (bsAnchor ++ run ++ ';' :: rest)
      = some (bsAnchor.length + run.length + 1) := by
  have hne : bsAnchor ≠ [] := by decide
  have hf : findFrom bsAnchor (bsAnchor ++ (run ++ ';' :: rest)) = some 0 :=
    findFrom_self bsAnchor _ hne
  have ht : takeLazySemi (run ++ ';' :: rest) = some (run, rest) :=
    takeLazySemi_split rest run h
  have hform : bsAnchor ++ run ++ ';' :: rest = bsAnchor ++ (run ++ ';' :: rest) := by
    simp [List.append_assoc]
  rw [hform]
  unfold codeBlockEnd
  rw [hf]
  simp [List.drop_left, ht]

/-- C3 (witness): the amended theorem applied at a concrete block. -/
theorem c3_amended_witness :
    codeBlockEnd (bsAnchor ++ "A = 1".toList ++ ';' :: "\n\x7d;".toList)
      = some (bsAnchor.length + ("A = 1".toList).length + 1) :=
  c3_code_ends_at_first_semi _ _ (by decide)

/-- C5 (amended): when the document already holds exactly the desired
`OTHER_LDFLAGS` assignment, the replace stage of
`configure_xcframework.py` leaves every byte unchanged but reports the
operation as performed (`modified = true`), not as `unchanged`. -/
theorem c5_equal_value_reported_updated (pre post : Doc)
    (hpre : ∀ x ∈ pre, x ≠ 'O') (hpost : ∀ x ∈ post, x ≠ 'O') :
    xcfStageLd (pre ++ xcfLdRep ++ post, false) = (pre ++ xcfLdRep ++ post, true) := by
  have hv : ';' ∉ xcfLdVal := by decide
  have hdoc : pre ++ xcfLdRep ++ post
      = pre ++ (('O' :: ldAnchorTl) ++ xcfLdVal ++ ';' :: post) := by
    rw [xcfLdRep_decomp, ldAnchor_cons]
    simp [List.append_assoc]
  have hsearch : searchKey ldAnchor (pre ++ xcfLdRep ++ post) = true := by
    rw [hdoc, ldAnchor_cons]
    exact searchKey_append_right _ pre _ (searchKey_hit ldAnchorTl xcfLdVal post hv)
  have hsub : subKey ldAnchor (fun _ => xcfLdRep) (pre ++ xcfLdRep ++ post)
      = pre ++ xcfLdRep ++ post := by
    unfold subKey
    rw [hdoc, ldAnchor_cons]
    rw [subKeyGo_copy ldAnchorTl _ pre _ hpre]
    rw [subKeyGo_hit ldAnchorTl xcfLdVal post _ hv]
    rw [subKeyGo_id ldAnchorTl _ post hpost]
    simp [xcfLdRep_decomp, ldAnchor_cons, List.append_assoc]
  simp only [List.append_assoc] at hsearch hsub
  simp [xcfStageLd, hsearch, hsub]

/-- C5 (witness): the amended theorem applied at a concrete document. -/
theorem c5_amended_witness :
    xcfStageLd ("x = 1;\n".toList ++ xcfLdRep ++ "\n".toList, false)
      = ("x = 1;\n".toList ++ xcfLdRep ++ "\n".toList, true) :=
  c5_equal_value_reported_updated _ _ (by decide) (by decide)

/-- C9 (amended): with the same key present twice, the replace stage of
`configure_xcframework.py` rewrites every occurrence of the anchored
assignment, and the outcome carries no duplicate-key anomaly flag — only
the new content and the modified bit. -/
theorem c9_all_occurrences_replaced (pre mid post v1 v2 : Doc)
    (hpre : ∀ x ∈ pre, x ≠ 'O') (hmid : ∀ x ∈ mid, x ≠ 'O') (hpost : ∀ x ∈ post, x ≠ 'O')
    (hv1 : ';' ∉ v1) (hv2 : ';' ∉ v2) :
    xcfStageLd (pre ++ ldAnchor ++ v1 ++ ';' :: (mid ++ ldAnchor ++ v2 ++ ';' :: post), false)
      = (pre ++ xcfLdRep ++ mid ++ xcfLdRep ++ post, true) := by
  have hform : pre ++ ldAnchor ++ v1 ++ ';' :: (mid ++ ldAnchor ++ v2 ++ ';' :: post)
      = pre ++ (('O' :: ldAnchorTl) ++ v1
          ++ ';' :: (mid ++ (('O' :: ldAnchorTl) ++ v2 ++ ';' :: post))) := by
    rw [ldAnchor_cons]
    simp [List.append_assoc]
  have hsearch : searchKey ldAnchor
      (pre ++ ldAnchor ++ v1 ++ ';' :: (mid ++ ldAnchor ++ v2 ++ ';' :: post)) = true := by
    rw [hform, ldAnchor_cons]
    exact searchKey_append_right _ pre _ (searchKey_hit ldAnchorTl v1 _ hv1)
  have hsub : subKey ldAnchor (fun _ => xcfLdRep)
      (pre ++ ldAnchor ++ v1 ++ ';' :: (mid ++ ldAnchor ++ v2 ++ ';' :: post))
      = pre ++ xcfLdRep ++ mid ++ xcfLdRep ++ post := by
    unfold subKey
    rw [hform, ldAnchor_cons]
    rw [subKeyGo_copy ldAnchorTl _ pre _ hpre]
    rw [subKeyGo_hit ldAnchorTl v1 _ _ hv1]
    rw [subKeyGo_copy ldAnchorTl _ mid _ hmid]
    rw [subKeyGo_hit ldAnchorTl v2 _ _ hv2]
    rw [subKeyGo_id ldAnchorTl _ post hpost]
    simp [xcfLdRep_decomp, ldAnchor_cons, List.append_assoc]
  simp only [List.append_assoc] at hsearch hsub
  simp [xcfStageLd, hsearch, hsub]

/-- C9 (witness): the amended theorem applied at a concrete document with
the key present twice. -/
theorem c9_amended_witness :
    xcfStageLd ("p;\n".toList ++ ldAnchor ++ "A".toList
        ++ ';' :: ("\n".toList ++ ldAnchor ++ "B".toList ++ ';' :: "\n".toList), false)
      = ("p;\n".toList ++ xcfLdRep ++ "\n".toList ++ xcfLdRep ++ "\n".toList, true) :=
  c9_all_occurrences_replaced _ _ _ _ _
    (by decide) (by decide) (by decide) (by decide) (by decide)

/-- C8: a block anchor that is absent is non-fatal: when neither the
`OTHER_LDFLAGS` tuple pattern nor the Debug block anchor occurs in the
document, those operations report not-applied and leave the content
untouched, the Release operation still executes (applied exactly when its
anchor occurs), and the run still succeeds. -/
theorem c8_block_not_found_skipped (d : Doc)
    (h1 : occurs dbgLdPat d = false) (h3 : occurs dbgStart d = false) :
    condTransform d
      = ⟨(if occurs relStart d = true then replaceAll relStart relRepl d else d),
         false, false, false, occurs relStart d⟩
    ∧ (condRun (some d)).ret = true := by
  constructor
  · have hrel : relLdPat = dbgLdPat := rfl
    simp [condTransform, hrel, h1, h3]
  · rfl

/-- C8 (witness): the theorem applied at `c8doc`, where the Debug
patterns are absent and the Release anchor is present. -/
theorem c8_witness :
    condTransform c8doc
      = ⟨(if occurs relStart c8doc = true then replaceAll relStart relRepl c8doc else c8doc),
         false, false, false, occurs relStart c8doc⟩
    ∧ (condRun (some c8doc)).ret = true :=
  c8_block_not_found_skipped c8doc (by decide) (by decide)
